import Mathlib

/-!
Shallow embedding of the CDR client transport foundation of go-hsdp-api
(src/cdr/client.go): the used subset of Go's net/url parsing, client
construction, request building with the option chain, transport execution
and response classification.  Definitions follow the Go source; external
collaborators (net/url, os.OpenFile, the jsonformat codecs, the HTTP
transport) are modelled by explicit outcome parameters or faithful
subsets, as noted on each definition.
-/

deriving instance DecidableEq for Except

namespace Cdr

/-- Version constant from the source. -/
def libraryVersion : String := "0.27.0"

/-- The User-Agent value a freshly constructed client carries. -/
def userAgent : String := "go-hsdp-api/cdr/" ++ libraryVersion

/-- The API-Version header value. -/
def APIVersion : String := "1"

/-- Errors observable through the modelled API.  `errCDRURLCannotBeEmpty`
and `errNonHttp20xResponse` model the package error values
`ErrCDRURLCannotBeEmpty` and `ErrNonHttp20xResponse`; the remaining
constructors model errors produced by external collaborators (net/url,
option functions, the HTTP transport, the jsonformat codecs, json
decoding). -/
inductive CDRError where
  | errCDRURLCannotBeEmpty : CDRError
  | errNonHttp20xResponse : CDRError
  | urlParseError (msg : String) : CDRError
  | optionError (msg : String) : CDRError
  | transportError (msg : String) : CDRError
  | jsonformatError (msg : String) : CDRError
  | decodeError (msg : String) : CDRError
deriving DecidableEq, Repr

/-- The fields of Go's net/url URL structure used by the client.  `opaq`
models the `Opaque` field (the name is shortened). -/
structure URL where
  scheme : String
  host : String
  path : String
  opaq : String
  rawQuery : String
  fragment : String
deriving DecidableEq, Repr

/-- Control characters, as rejected by net/url's Parse. -/
def isCTL (c : Char) : Bool := decide (c.toNat < 32) || decide (c.toNat = 127)

/-- strings.Cut on a single character: (before, after?) where the second
component is `some` exactly when the separator occurs. -/
def cutList (sep : Char) : List Char → List Char × Option (List Char)
  | [] => ([], none)
  | c :: cs =>
    if c = sep then ([], some cs)
    else
      let r := cutList sep cs
      (c :: r.1, r.2)

/-- Characters allowed in a scheme after the first position, besides
letters. -/
def isSchemeExtraChar (c : Char) : Bool := c.isDigit || c = '+' || c = '-' || c = '.'

/-- getScheme of net/url: split a leading "scheme:" off the character list.
`seen` holds the scheme candidate scanned so far, reversed.  On the break
cases the whole original string is returned as the remainder, exactly as in
the Go loop. -/
def getSchemeAux (seen : List Char) : List Char → Except String (List Char × List Char)
  | [] => .ok ([], seen.reverse)
  | c :: cs =>
    if c.isAlpha then getSchemeAux (c :: seen) cs
    else if isSchemeExtraChar c then
      if seen.isEmpty then .ok ([], c :: cs)
      else getSchemeAux (c :: seen) cs
    else if c = ':' then
      if seen.isEmpty then .error "missing protocol scheme"
      else .ok (seen.reverse, cs)
    else .ok ([], seen.reverse ++ c :: cs)

/-- Hexadecimal digit test, as in net/url's ishex. -/
def isHexDigit (c : Char) : Bool :=
  c.isDigit || (decide (97 ≤ c.toNat) && decide (c.toNat ≤ 102))
    || (decide (65 ≤ c.toNat) && decide (c.toNat ≤ 70))

/-- Value of a hexadecimal digit. -/
def hexVal (c : Char) : Nat :=
  if c.isDigit then c.toNat - 48
  else if decide (97 ≤ c.toNat) then c.toNat - 87
  else c.toNat - 55

/-- Validity of percent escapes, as checked by net/url's unescape: every
'%' must be followed by two hexadecimal digits. -/
def validEscapes : List Char → Bool
  | [] => true
  | '%' :: a :: b :: rest => isHexDigit a && isHexDigit b && validEscapes rest
  | '%' :: _ => false
  | _ :: rest => validEscapes rest

/-- Percent decoding of a list with valid escapes (net/url's unescape on
the path; '+' is untouched in path mode). -/
def unescapeList : List Char → List Char
  | [] => []
  | '%' :: a :: b :: rest => Char.ofNat (16 * hexVal a + hexVal b) :: unescapeList rest
  | c :: rest => c :: unescapeList rest

/-- Host of an authority: the part after the last '@' (userinfo dropped),
as in net/url's parseAuthority.  Go additionally validates host and port
syntax; that validation is not modelled — no claim depends on it. -/
def dropUserinfo (auth : List Char) : List Char :=
  (auth.reverse.takeWhile (fun c => c != '@')).reverse

/-- Model of Go's net/url Parse restricted to what the client exercises:
control character rejection, fragment and query splitting, scheme
extraction (with the "missing protocol scheme" error), the scheme-with-
rootless-remainder branch that fills `Opaque`, the colon-in-first-segment
error, authority splitting with userinfo dropped, and percent escape
validation and decoding of path and fragment.  Host/port syntax validation
and RawPath bookkeeping are not modelled. -/
def urlParse (rawURL : String) : Except String URL :=
  let chars := rawURL.toList
  if chars.any isCTL then .error "invalid control character in URL"
  else
    let cf := cutList '#' chars
    let frag := cf.2.getD []
    if validEscapes frag = false then .error "invalid URL escape"
    else
      match getSchemeAux [] cf.1 with
      | .error e => .error e
      | .ok sr =>
        let scheme := (sr.1.map Char.toLower).asString
        let cq := cutList '?' sr.2
        let rest := cq.1
        let rawQuery := (cq.2.getD []).asString
        let fragment := (unescapeList frag).asString
        if rest.head? ≠ some '/' then
          if scheme ≠ "" then
            .ok { scheme := scheme, host := "", path := "",
                  opaq := rest.asString, rawQuery := rawQuery, fragment := fragment }
          else if ':' ∈ (cutList '/' rest).1 then
            .error "first path segment in URL cannot contain colon"
          else if validEscapes rest = false then .error "invalid URL escape"
          else
            .ok { scheme := scheme, host := "", path := (unescapeList rest).asString,
                  opaq := "", rawQuery := rawQuery, fragment := fragment }
        else
          if (scheme ≠ "" ∨ ¬ rest.take 3 = ['/', '/', '/']) ∧ rest.take 2 = ['/', '/'] then
            let ca := cutList '/' (rest.drop 2)
            let pathPart := match ca.2 with
              | none => []
              | some p => '/' :: p
            if validEscapes pathPart = false then .error "invalid URL escape"
            else
              .ok { scheme := scheme, host := (dropUserinfo ca.1).asString,
                    path := (unescapeList pathPart).asString, opaq := "",
                    rawQuery := rawQuery, fragment := fragment }
          else if validEscapes rest = false then .error "invalid URL escape"
          else
            .ok { scheme := scheme, host := "", path := (unescapeList rest).asString,
                  opaq := "", rawQuery := rawQuery, fragment := fragment }

/-- The configuration record of the client (all fields are strings in the
source). -/
structure Config where
  region : String
  environment : String
  rootOrgID : String
  cdrURL : String
  fhirStore : String
  timeZone : String
  debugLog : String
deriving DecidableEq, Repr

/-- State of the external IAM client at one moment: its current bearer
token.  The source reads `c.iamClient.Token()` at build time through a
pointer whose pointee changes over time, so the state is an explicit
argument of the build function. -/
structure IAMClient where
  token : String
deriving DecidableEq, Repr

/-- The CDR client.  `fhirStoreURL` is the parsed base URL; a client value
exists only after `SetFHIRStoreURL` succeeded, which holds for every
client `newClient` returns (the nil URL of a half-built Go client is not
representable).  `debugFile` records whether a debug sink is open.  The
STU3 service handles hold no transport state and are not modelled. -/
structure Client where
  config : Config
  fhirStoreURL : URL
  userAgent : String
  debugFile : Bool
deriving DecidableEq, Repr

/-- Outcomes of the external collaborators invoked by `newClient`:
os.OpenFile on the debug log path, and the jsonformat marshaller and
unmarshaller constructors (the latter depends on the configured time
zone). -/
structure Env where
  openFileOk : String → Bool
  marshallerErr : Option CDRError
  unmarshallerErr : String → Option CDRError

/-- Suffix test on strings by character list (kernel-computable model of
strings.HasSuffix). -/
def strEndsWith (s post : String) : Bool := post.toList.isSuffixOf s.toList

/-- Matching test for a leading piece of a string, by character list. -/
def strStartsWith (s pre : String) : Bool := pre.toList.isPrefixOf s.toList

/-- Trailing slash normalization of SetFHIRStoreURL. -/
def ensureSlash (s : String) : String := if strEndsWith s "/" then s else s ++ "/"

/-- SetFHIRStoreURL: reject the empty string, normalize the trailing
slash, parse.  On success the returned client carries the parsed URL; on
failure the Go method leaves the client with a nil URL and newClient
discards it, so the model returns only the error. -/
def SetFHIRStoreURL (c : Client) (urlStr : String) : Except CDRError Client :=
  if urlStr = "" then .error CDRError.errCDRURLCannotBeEmpty
  else
    match urlParse (ensureSlash urlStr) with
    | .error msg => .error (CDRError.urlParseError msg)
    | .ok u => .ok { c with fhirStoreURL := u }

/-- The store URL string newClient computes: the explicit FHIRStore
override, or CDRURL with the fixed suffix appended. -/
def fhirStoreDefault (cfg : Config) : String :=
  if cfg.fhirStore = "" then cfg.cdrURL ++ "/store/fhir/" else cfg.fhirStore

/-- Placeholder for the not-yet-set base URL of a client under
construction. -/
def emptyURL : URL :=
  { scheme := "", host := "", path := "", opaq := "", rawQuery := "", fragment := "" }

/-- newClient: assemble the client, set the store URL (failure aborts
construction), open the debug sink if configured (open failure silently
disables capture), then construct the jsonformat codecs (failure aborts
construction). -/
def newClient (cfg : Config) (env : Env) : Except CDRError Client :=
  let c0 : Client :=
    { config := cfg, fhirStoreURL := emptyURL, userAgent := userAgent, debugFile := false }
  match SetFHIRStoreURL c0 (fhirStoreDefault cfg) with
  | .error e => .error e
  | .ok c1 =>
    let c2 := if cfg.debugLog ≠ "" then { c1 with debugFile := env.openFileOk cfg.debugLog } else c1
    match env.marshallerErr with
    | some e => .error e
    | none =>
      match env.unmarshallerErr cfg.timeZone with
      | some e => .error e
      | none => .ok c2

/-- NewClient is a thin wrapper over newClient. -/
def NewClient (cfg : Config) (env : Env) : Except CDRError Client := newClient cfg env

/-- The fields of http.Request the builder touches.  The body is the byte
list wrapped by the NopCloser, when attached. -/
structure Request where
  method : String
  url : URL
  proto : String
  header : List (String × String)
  host : String
  body : Option (List Nat)
  contentLength : Int
deriving DecidableEq, Repr

/-- http.Header.Set: replace any entry stored under the same key.  Go
canonicalizes header keys; every key here is passed with consistent
spelling, so plain string keys model the map faithfully. -/
def headerSet (h : List (String × String)) (k v : String) : List (String × String) :=
  (k, v) :: h.filter (fun p => p.1 != k)

/-- http.Header.Get: the value stored for the key, if any. -/
def headerGet (h : List (String × String)) (k : String) : Option String :=
  match h with
  | [] => none
  | p :: rest => if p.1 = k then some p.2 else headerGet rest k

/-- An option function mutates the in-progress request or fails.  A `none`
entry in an option list models a nil Go function value. -/
def OptionFunc : Type := Request → Except CDRError Request

/-- The option loop of NewCDRRequest: nil entries are skipped, the first
failure aborts with that exact error, otherwise each option's mutation is
carried into the next. -/
def applyOptions (req : Request) : List (Option OptionFunc) → Except CDRError Request
  | [] => .ok req
  | none :: rest => applyOptions req rest
  | some f :: rest =>
    match f req with
    | .error e => .error e
    | .ok req' => applyOptions req' rest

/-- The request as first assembled by NewCDRRequest: the base URL copied
with `Opaque` set to basePath + rootOrgID + "/" + path — plain string
concatenation, no re-escaping — empty headers, no body. -/
def initialRequest (c : Client) (method path : String) : Request :=
  let u : URL :=
    { c.fhirStoreURL with opaq := c.fhirStoreURL.path ++ c.config.rootOrgID ++ "/" ++ path }
  { method := method, url := u, proto := "HTTP/1.1", header := [],
    host := u.host, body := none, contentLength := 0 }

/-- For POST/PUT/PATCH: clear the query string, attach bodyBytes, set the
content length to its byte count.  Every other method leaves the request
untouched (bodyBytes ignored). -/
def attachBody (method : String) (bodyBytes : List Nat) (req : Request) : Request :=
  if method = "POST" ∨ method = "PUT" ∨ method = "PATCH" then
    { req with url := { req.url with rawQuery := "" },
               body := some bodyBytes,
               contentLength := (bodyBytes.length : Int) }
  else req

/-- The header writes performed after the options ran: Accept,
Authorization (from the current token), API-Version, and User-Agent when
the client's user agent is nonempty, as in the source. -/
def setStandardHeaders (c : Client) (s : IAMClient) (req : Request) : Request :=
  let r1 := { req with header := headerSet req.header "Accept" "*/*" }
  let r2 := { r1 with header := headerSet r1.header "Authorization" ("Bearer " ++ s.token) }
  let r3 := { r2 with header := headerSet r2.header "API-Version" APIVersion }
  if c.userAgent = "" then r3
  else { r3 with header := headerSet r3.header "User-Agent" c.userAgent }

/-- The post-option stage of NewCDRRequest: body attachment then the
standard headers. -/
def finalizeRequest (c : Client) (s : IAMClient) (method : String)
    (bodyBytes : List Nat) (req : Request) : Request :=
  setStandardHeaders c s (attachBody method bodyBytes req)

/-- NewCDRRequest: assemble the initial request, run the option chain
(first failure aborts), attach the body for mutating methods, set the
standard headers.  `s` is the IAM client state at the moment of the
call. -/
def NewCDRRequest (c : Client) (s : IAMClient) (method path : String)
    (bodyBytes : List Nat) (options : List (Option OptionFunc)) :
    Except CDRError Request :=
  match applyOptions (initialRequest c method path) options with
  | .error e => .error e
  | .ok req => .ok (finalizeRequest c s method bodyBytes req)

/-- URL.RequestURI of net/url: the request-line target the HTTP layer
sends — the opaque data when present (scheme-prefixed if it starts with
"//"), otherwise the path (or "/" when empty), with the query appended
when present. -/
def requestURI (u : URL) : String :=
  let result :=
    if u.opaq = "" then (if u.path = "" then "/" else u.path)
    else (if strStartsWith u.opaq "//" then u.scheme ++ ":" ++ u.opaq else u.opaq)
  if u.rawQuery = "" then result else result ++ "?" ++ u.rawQuery

/-- The absolute target a built request reaches: net/http dials
scheme://host and sends RequestURI as the request line target. -/
def effectiveTarget (req : Request) : String :=
  req.url.scheme ++ "://" ++ req.host ++ requestURI req.url

/-- The parts of http.Response the transport foundation reads. -/
structure HttpResponse where
  statusCode : Nat
  header : List (String × String)
  body : List Nat
deriving DecidableEq, Repr

/-- CheckResponse: the switch over the status code. -/
def CheckResponse (r : HttpResponse) : Option CDRError :=
  if r.statusCode = 200 ∨ r.statusCode = 201 ∨ r.statusCode = 202 ∨
      r.statusCode = 204 ∨ r.statusCode = 304 then none
  else some CDRError.errNonHttp20xResponse

/-- Outcome of the underlying HTTP transport for one send
(`c.iamClient.HttpClient().Do(req)`): a transport-level error with no
response, or a received response. -/
inductive TransportOutcome where
  | failure (e : CDRError) : TransportOutcome
  | success (resp : HttpResponse) : TransportOutcome

/-- The caller-supplied destination `v` of Do, carrying the outcome of its
own consumption step: absent, an io.Writer sink (io.Copy may fail), or a
structured JSON decode whose outcome depends on the body bytes. -/
inductive Destination where
  | noDest : Destination
  | rawSink (copyErr : Option CDRError) : Destination
  | structured (decodeErr : List Nat → Option CDRError) : Destination

/-- What Do returns, together with what it did to the response body
stream.  Debug capture is side-effect only (best effort, failures
swallowed) and is not modelled. -/
structure DoResult where
  response : Option HttpResponse
  error : Option CDRError
  bodyRead : Bool
  bodyClosed : Bool
deriving Repr

/-- Do: send (the transport outcome is given), wrap the response, classify
the status; on a classification error return the wrapped response
together with the error with the body untouched; on success consume the
body only when a destination was supplied, closing it in that case
only. -/
def Do (outcome : TransportOutcome) (v : Destination) : DoResult :=
  match outcome with
  | .failure e =>
    { response := none, error := some e, bodyRead := false, bodyClosed := false }
  | .success resp =>
    match CheckResponse resp with
    | some e =>
      { response := some resp, error := some e, bodyRead := false, bodyClosed := false }
    | none =>
      match v with
      | .noDest =>
        { response := some resp, error := none, bodyRead := false, bodyClosed := false }
      | .rawSink copyErr =>
        { response := some resp, error := copyErr, bodyRead := true, bodyClosed := true }
      | .structured dec =>
        { response := some resp, error := dec resp.body, bodyRead := true, bodyClosed := true }

/-! Helper lemmas shared by the claim theorems. -/

theorem applyOptions_append (req : Request) (l1 l2 : List (Option OptionFunc)) :
    applyOptions req (l1 ++ l2) =
      match applyOptions req l1 with
      | .error e => .error e
      | .ok r => applyOptions r l2 := by
  induction l1 generalizing req with
  | nil => rfl
  | cons o rest ih =>
    cases o with
    | none => simpa [applyOptions] using ih req
    | some f =>
      simp only [List.cons_append, applyOptions]
      cases f req with
      | error e => rfl
      | ok r => exact ih r

theorem newCDRRequest_ok_iff (c : Client) (s : IAMClient) (method path : String)
    (b : List Nat) (opts : List (Option OptionFunc)) (r : Request) :
    NewCDRRequest c s method path b opts = .ok r ↔
      ∃ req', applyOptions (initialRequest c method path) opts = .ok req' ∧
        r = finalizeRequest c s method b req' := by
  unfold NewCDRRequest
  cases h : applyOptions (initialRequest c method path) opts with
  | error e => simp [h]
  | ok req' =>
    simp only [h]
    constructor
    · intro hr
      exact ⟨req', rfl, (Except.ok.injEq _ _).mp hr |>.symm⟩
    · rintro ⟨q, hq, hrq⟩
      cases (Except.ok.injEq (ε := CDRError) _ _).mp hq
      exact congrArg Except.ok hrq.symm

theorem headerGet_filter_ne (h : List (String × String)) (k k' : String) (hne : k' ≠ k) :
    headerGet (h.filter (fun p => p.1 != k)) k' = headerGet h k' := by
  induction h with
  | nil => rfl
  | cons p rest ih =>
    by_cases hp : p.1 = k
    · have : (p.1 != k) = false := by simp [hp]
      simp only [List.filter, this, headerGet]
      rw [ih]
      have : ¬ p.1 = k' := by rw [hp]; exact fun hc => hne hc.symm
      simp [headerGet, this]
    · have : (p.1 != k) = true := by simp [hp]
      simp only [List.filter, this, headerGet]
      by_cases hpk : p.1 = k'
      · simp [headerGet, hpk]
      · simp [headerGet, hpk, ih]

theorem headerGet_set_same (h : List (String × String)) (k v : String) :
    headerGet (headerSet h k v) k = some v := by
  simp [headerSet, headerGet]

theorem headerGet_set_ne (h : List (String × String)) (k v k' : String) (hne : k' ≠ k) :
    headerGet (headerSet h k v) k' = headerGet h k' := by
  have : ¬ k = k' := fun hc => hne hc.symm
  simp only [headerSet, headerGet, this, if_false]
  exact headerGet_filter_ne h k k' hne

theorem setStandardHeaders_fields (c : Client) (s : IAMClient) (req : Request) :
    (setStandardHeaders c s req).url = req.url ∧
    (setStandardHeaders c s req).body = req.body ∧
    (setStandardHeaders c s req).contentLength = req.contentLength ∧
    (setStandardHeaders c s req).method = req.method ∧
    (setStandardHeaders c s req).host = req.host := by
  unfold setStandardHeaders
  split <;> simp

theorem setStandardHeaders_accept (c : Client) (s : IAMClient) (req : Request) :
    headerGet (setStandardHeaders c s req).header "Accept" = some "*/*" := by
  unfold setStandardHeaders
  split
  · rw [headerGet_set_ne _ _ _ _ (by decide), headerGet_set_ne _ _ _ _ (by decide)]
    exact headerGet_set_same _ _ _
  · rw [headerGet_set_ne _ _ _ _ (by decide), headerGet_set_ne _ _ _ _ (by decide),
      headerGet_set_ne _ _ _ _ (by decide)]
    exact headerGet_set_same _ _ _

theorem setStandardHeaders_auth (c : Client) (s : IAMClient) (req : Request) :
    headerGet (setStandardHeaders c s req).header "Authorization" =
      some ("Bearer " ++ s.token) := by
  unfold setStandardHeaders
  split
  · rw [headerGet_set_ne _ _ _ _ (by decide)]
    exact headerGet_set_same _ _ _
  · rw [headerGet_set_ne _ _ _ _ (by decide), headerGet_set_ne _ _ _ _ (by decide)]
    exact headerGet_set_same _ _ _

theorem setStandardHeaders_apiVersion (c : Client) (s : IAMClient) (req : Request) :
    headerGet (setStandardHeaders c s req).header "API-Version" = some APIVersion := by
  unfold setStandardHeaders
  split
  · exact headerGet_set_same _ _ _
  · rw [headerGet_set_ne _ _ _ _ (by decide)]
    exact headerGet_set_same _ _ _

theorem setStandardHeaders_userAgent (c : Client) (s : IAMClient) (req : Request)
    (hua : c.userAgent ≠ "") :
    headerGet (setStandardHeaders c s req).header "User-Agent" = some c.userAgent := by
  unfold setStandardHeaders
  split
  · exact absurd (by assumption) hua
  · exact headerGet_set_same _ _ _

theorem newCDRRequest_auth_of_ok (c : Client) (s : IAMClient) (method path : String)
    (b : List Nat) (opts : List (Option OptionFunc)) (r : Request)
    (h : NewCDRRequest c s method path b opts = .ok r) :
    headerGet r.header "Authorization" = some ("Bearer " ++ s.token) := by
  obtain ⟨req', _, hr⟩ := (newCDRRequest_ok_iff c s method path b opts r).mp h
  rw [hr]
  exact setStandardHeaders_auth c s _

theorem setFHIRStoreURL_userAgent (c0 c : Client) (s : String)
    (h : SetFHIRStoreURL c0 s = .ok c) : c.userAgent = c0.userAgent := by
  unfold SetFHIRStoreURL at h
  split at h
  · simp at h
  · cases hp : urlParse (ensureSlash s) with
    | error msg => rw [hp] at h; simp at h
    | ok u =>
      rw [hp] at h
      simp only [Except.ok.injEq] at h
      rw [← h]

theorem newClient_userAgent (cfg : Config) (env : Env) (c : Client)
    (h : newClient cfg env = .ok c) : c.userAgent = userAgent := by
  unfold newClient at h
  cases hs : SetFHIRStoreURL
      { config := cfg, fhirStoreURL := emptyURL, userAgent := userAgent, debugFile := false }
      (fhirStoreDefault cfg) with
  | error e => simp only [hs] at h; exact Except.noConfusion h
  | ok c1 =>
    simp only [hs] at h
    have hc1 : c1.userAgent = userAgent := setFHIRStoreURL_userAgent _ c1 _ hs
    cases hm : env.marshallerErr with
    | some e => simp only [hm] at h; exact Except.noConfusion h
    | none =>
      simp only [hm] at h
      cases hu : env.unmarshallerErr cfg.timeZone with
      | some e => simp only [hu] at h; exact Except.noConfusion h
      | none =>
        simp only [hu, Except.ok.injEq] at h
        rw [← h]
        split
        · exact hc1
        · exact hc1

/-! Concrete fixtures used by witnesses and the end-to-end scenarios. -/

/-- A configuration pointing at the spec's example base URL with root
organization "org1". -/
def cfgExample : Config :=
  { region := "us-east", environment := "client-test", rootOrgID := "org1",
    cdrURL := "", fhirStore := "https://example.org/store/fhir/",
    timeZone := "", debugLog := "" }

/-- An environment in which every external collaborator succeeds (the real
behaviour of os.OpenFile on a writable path and of the jsonformat
constructors on an empty time zone). -/
def envOk : Env :=
  { openFileOk := fun _ => true, marshallerErr := none, unmarshallerErr := fun _ => none }

/-- The client newClient builds from cfgExample. -/
def cExClient : Client :=
  { config := cfgExample,
    fhirStoreURL := { scheme := "https", host := "example.org", path := "/store/fhir/",
                      opaq := "", rawQuery := "", fragment := "" },
    userAgent := userAgent, debugFile := false }

/-- A concrete IAM state. -/
def tokEx : IAMClient := { token := "token-one" }

/-- A second IAM state, for the token-rotation scenario. -/
def tokEx2 : IAMClient := { token := "token-two" }

/-- The request built for GET Patient/123 against cfgExample. -/
def reqGet123 : Request :=
  finalizeRequest cExClient tokEx "GET" [] (initialRequest cExClient "GET" "Patient/123")

/-- A 404 response with a JSON error body. -/
def resp404 : HttpResponse :=
  { statusCode := 404, header := [("Content-Type", "application/json")],
    body := [34, 110, 111, 116, 32, 102, 111, 117, 110, 100, 34] }

/-- The same status as resp404 with body and headers removed. -/
def resp404stripped : HttpResponse := { statusCode := 404, header := [], body := [] }

/-- A plain 200 response. -/
def resp200 : HttpResponse := { statusCode := 200, header := [], body := [] }

/-! The claim theorems. -/

/-- C1: for every status code in 200, 201, 202, 204, 304 CheckResponse
returns nil; for every other code in the range 100 to 599 it returns the
generic ErrNonHttp20xResponse; and the outcome depends only on the status
code, never on body or headers. -/
theorem claim_checkResponse_classification (r r' : HttpResponse)
    (hsame : r.statusCode = r'.statusCode)
    (hlo : 100 ≤ r.statusCode) (hhi : r.statusCode ≤ 599) :
    ((r.statusCode = 200 ∨ r.statusCode = 201 ∨ r.statusCode = 202 ∨
        r.statusCode = 204 ∨ r.statusCode = 304) → CheckResponse r = none) ∧
    (¬ (r.statusCode = 200 ∨ r.statusCode = 201 ∨ r.statusCode = 202 ∨
        r.statusCode = 204 ∨ r.statusCode = 304) →
      CheckResponse r = some CDRError.errNonHttp20xResponse) ∧
    CheckResponse r = CheckResponse r' := by
  refine ⟨fun hin => ?_, fun hout => ?_, ?_⟩
  · simp [CheckResponse, hin]
  · simp [CheckResponse, hout]
  · unfold CheckResponse
    rw [hsame]

theorem claim_checkResponse_classification_witness :
    CheckResponse resp404 = some CDRError.errNonHttp20xResponse ∧
    CheckResponse resp200 = none :=
  ⟨(claim_checkResponse_classification resp404 resp404stripped rfl
      (by decide) (by decide)).2.1 (by decide),
   (claim_checkResponse_classification resp200 resp200 rfl
      (by decide) (by decide)).1 (by decide)⟩

/-- C2: when the send succeeds but classification fails, Do returns the
wrapped response (not nil) together with the classification error, and on
that path the body is neither read nor closed — in particular it is left
available when no destination was supplied. -/
theorem claim_do_error_still_returns_response (resp : HttpResponse) (v : Destination)
    (e : CDRError) (h : CheckResponse resp = some e) :
    (Do (.success resp) v).response = some resp ∧
    (Do (.success resp) v).error = some e ∧
    (v = Destination.noDest →
      (Do (.success resp) v).bodyRead = false ∧
      (Do (.success resp) v).bodyClosed = false) := by
  simp [Do, h]

theorem claim_do_error_still_returns_response_witness :
    (Do (.success resp404) Destination.noDest).response = some resp404 ∧
    (Do (.success resp404) Destination.noDest).error = some CDRError.errNonHttp20xResponse ∧
    (Destination.noDest = Destination.noDest →
      (Do (.success resp404) Destination.noDest).bodyRead = false ∧
      (Do (.success resp404) Destination.noDest).bodyClosed = false) :=
  claim_do_error_still_returns_response resp404 Destination.noDest
    CDRError.errNonHttp20xResponse (by decide)

/-- C3: the request URL's Opaque component is basePath + rootOrgID + "/"
+ path, by plain concatenation without re-escaping; with the example base
URL, root organization org1 and path Patient/123 the built GET request
targets https://example.org/store/fhir/org1/Patient/123. -/
theorem claim_opaque_url_resolution (c cEx : Client) (s : IAMClient)
    (method path : String) (b : List Nat) (r rEx : Request) :
    ((initialRequest c method path).url.opaq
        = c.fhirStoreURL.path ++ c.config.rootOrgID ++ "/" ++ path) ∧
    (NewCDRRequest c s method path b [] = .ok r →
      r.url.opaq = c.fhirStoreURL.path ++ c.config.rootOrgID ++ "/" ++ path) ∧
    (newClient cfgExample envOk = .ok cEx →
      NewCDRRequest cEx s "GET" "Patient/123" [] [] = .ok rEx →
      effectiveTarget rEx = "https://example.org/store/fhir/org1/Patient/123") := by
  refine ⟨rfl, fun h => ?_, fun hc hr => ?_⟩
  · obtain ⟨req', hq, hrr⟩ := (newCDRRequest_ok_iff c s method path b [] r).mp h
    have hinit : req' = initialRequest c method path := by
      simpa [applyOptions] using hq.symm
    subst hinit
    subst hrr
    unfold finalizeRequest
    rw [(setStandardHeaders_fields c s _).1]
    unfold attachBody
    split <;> rfl
  · have hcex : newClient cfgExample envOk = .ok cExClient := by decide
    rw [hcex] at hc
    injection hc with hc
    subst hc
    have h3 : NewCDRRequest cExClient s "GET" "Patient/123" [] []
        = .ok (finalizeRequest cExClient s "GET" [] (initialRequest cExClient "GET" "Patient/123")) := rfl
    rw [h3] at hr
    injection hr with hr
    subst hr
    unfold effectiveTarget finalizeRequest
    have hf := setStandardHeaders_fields cExClient s
      (attachBody "GET" [] (initialRequest cExClient "GET" "Patient/123"))
    rw [hf.1, hf.2.2.2.2]
    decide

theorem claim_opaque_url_resolution_witness :
    reqGet123.url.opaq
        = cExClient.fhirStoreURL.path ++ cExClient.config.rootOrgID ++ "/" ++ "Patient/123" ∧
    effectiveTarget reqGet123 = "https://example.org/store/fhir/org1/Patient/123" :=
  ⟨(claim_opaque_url_resolution cExClient cExClient tokEx "GET" "Patient/123" []
      reqGet123 reqGet123).2.1 rfl,
   (claim_opaque_url_resolution cExClient cExClient tokEx "GET" "Patient/123" []
      reqGet123 reqGet123).2.2 (by decide) rfl⟩

/-- C4: when an option in the chain fails, NewCDRRequest returns exactly
that error and no request; the result does not depend on the options
after the failing one, so none of them is ever applied. -/
theorem claim_option_error_aborts (c : Client) (s : IAMClient) (method path : String)
    (b : List Nat) (pre post : List (Option OptionFunc)) (f : OptionFunc)
    (e : CDRError) (req' : Request)
    (hpre : applyOptions (initialRequest c method path) pre = .ok req')
    (hf : f req' = .error e) :
    NewCDRRequest c s method path b (pre ++ some f :: post) = .error e := by
  unfold NewCDRRequest
  rw [applyOptions_append, hpre]
  simp only [applyOptions, hf]

/-- An option that always fails. -/
def optFail : OptionFunc := fun _ => .error (CDRError.optionError "boom")

/-- An option that records its application in a header. -/
def optSetHeader : OptionFunc :=
  fun req => .ok { req with header := headerSet req.header "X-Test" "1" }

theorem claim_option_error_aborts_witness :
    NewCDRRequest cExClient tokEx "GET" "Patient/123" []
        ([] ++ some optFail :: [some optSetHeader])
      = .error (CDRError.optionError "boom") :=
  claim_option_error_aborts cExClient tokEx "GET" "Patient/123" [] [] [some optSetHeader]
    optFail (CDRError.optionError "boom")
    (initialRequest cExClient "GET" "Patient/123") rfl rfl

/-- C5: the Authorization header of every built request is "Bearer " plus
the token the IAM client holds at the moment of that build call; two
builds on the same client under different token states each carry their
own state's token, never a value cached at client construction. -/
theorem claim_authorization_fresh_token (c : Client) (s1 s2 : IAMClient)
    (method path : String) (b : List Nat) (opts : List (Option OptionFunc))
    (r1 r2 : Request)
    (h1 : NewCDRRequest c s1 method path b opts = .ok r1)
    (h2 : NewCDRRequest c s2 method path b opts = .ok r2) :
    headerGet r1.header "Authorization" = some ("Bearer " ++ s1.token) ∧
    headerGet r2.header "Authorization" = some ("Bearer " ++ s2.token) :=
  ⟨newCDRRequest_auth_of_ok c s1 method path b opts r1 h1,
   newCDRRequest_auth_of_ok c s2 method path b opts r2 h2⟩

/-- The GET Patient/123 request built under the rotated token state. -/
def reqGet123b : Request :=
  finalizeRequest cExClient tokEx2 "GET" [] (initialRequest cExClient "GET" "Patient/123")

theorem claim_authorization_fresh_token_witness :
    headerGet reqGet123.header "Authorization" = some ("Bearer " ++ tokEx.token) ∧
    headerGet reqGet123b.header "Authorization" = some ("Bearer " ++ tokEx2.token) :=
  claim_authorization_fresh_token cExClient tokEx tokEx2 "GET" "Patient/123" [] []
    reqGet123 reqGet123b rfl rfl

/-- C6: for POST, PUT and PATCH the built request's content length equals
the byte length of bodyBytes, the body is exactly bodyBytes, and the URL
query string is empty — also when an option had set one. -/
theorem claim_mutating_body_and_query (c : Client) (s : IAMClient) (method path : String)
    (b : List Nat) (opts : List (Option OptionFunc)) (r : Request)
    (hm : method = "POST" ∨ method = "PUT" ∨ method = "PATCH")
    (h : NewCDRRequest c s method path b opts = .ok r) :
    r.contentLength = (b.length : Int) ∧ r.url.rawQuery = "" ∧ r.body = some b := by
  obtain ⟨req', hq, hr⟩ := (newCDRRequest_ok_iff c s method path b opts r).mp h
  subst hr
  have hf := setStandardHeaders_fields c s (attachBody method b req')
  unfold finalizeRequest
  refine ⟨?_, ?_, ?_⟩
  · rw [hf.2.2.1]
    unfold attachBody
    rw [if_pos hm]
  · rw [hf.1]
    unfold attachBody
    rw [if_pos hm]
  · rw [hf.2.1]
    unfold attachBody
    rw [if_pos hm]

/-- The mutation an option performs when it sets a query string. -/
def queryRequest (req : Request) : Request :=
  { req with url := { req.url with rawQuery := "a=b" } }

/-- An option that sets a query string on the in-progress request. -/
def optSetQuery : OptionFunc := fun req => .ok (queryRequest req)

/-- The POST request built with the query-setting option applied. -/
def reqPostC6 : Request :=
  finalizeRequest cExClient tokEx "POST" [1, 2, 3]
    (queryRequest (initialRequest cExClient "POST" "Patient"))

theorem claim_mutating_body_and_query_witness :
    reqPostC6.contentLength = (([1, 2, 3] : List Nat).length : Int) ∧
    reqPostC6.url.rawQuery = "" ∧ reqPostC6.body = some [1, 2, 3] :=
  claim_mutating_body_and_query cExClient tokEx "POST" "Patient" [1, 2, 3]
    [some optSetQuery] reqPostC6 (Or.inl rfl) rfl

/-- C7: for GET and DELETE the builder ignores bodyBytes entirely — the
result is the same for any two bodyBytes inputs — and attaches no body of
its own: body and content length are exactly those left by the option
chain, whose starting values are none and 0. -/
theorem claim_nonmutating_ignores_body (c : Client) (s : IAMClient) (method path : String)
    (b b' : List Nat) (opts : List (Option OptionFunc)) (req' r : Request)
    (hm : method = "GET" ∨ method = "DELETE")
    (hopts : applyOptions (initialRequest c method path) opts = .ok req')
    (h : NewCDRRequest c s method path b opts = .ok r) :
    r.body = req'.body ∧ r.contentLength = req'.contentLength ∧
    NewCDRRequest c s method path b opts = NewCDRRequest c s method path b' opts := by
  have hnm : ¬ (method = "POST" ∨ method = "PUT" ∨ method = "PATCH") := by
    rcases hm with h1 | h1 <;> subst h1 <;> decide
  obtain ⟨q, hq, hr⟩ := (newCDRRequest_ok_iff c s method path b opts r).mp h
  rw [hopts] at hq
  injection hq with hq
  subst hq
  subst hr
  have hf := setStandardHeaders_fields c s (attachBody method b req')
  refine ⟨?_, ?_, ?_⟩
  · unfold finalizeRequest
    rw [hf.2.1]
    unfold attachBody
    rw [if_neg hnm]
  · unfold finalizeRequest
    rw [hf.2.2.1]
    unfold attachBody
    rw [if_neg hnm]
  · unfold NewCDRRequest
    simp only [hopts]
    unfold finalizeRequest attachBody
    rw [if_neg hnm, if_neg hnm]

/-- The GET request built with nonempty bodyBytes, which must be ignored. -/
def reqGetC7 : Request :=
  finalizeRequest cExClient tokEx "GET" [9, 9] (initialRequest cExClient "GET" "Patient/123")

theorem claim_nonmutating_ignores_body_witness :
    reqGetC7.body = (initialRequest cExClient "GET" "Patient/123").body ∧
    reqGetC7.contentLength = (initialRequest cExClient "GET" "Patient/123").contentLength ∧
    NewCDRRequest cExClient tokEx "GET" "Patient/123" [9, 9] []
      = NewCDRRequest cExClient tokEx "GET" "Patient/123" [] [] :=
  claim_nonmutating_ignores_body cExClient tokEx "GET" "Patient/123" [9, 9] [] []
    (initialRequest cExClient "GET" "Patient/123") reqGetC7 (Or.inl rfl) rfl rfl

/-- C8: every request built on a client that newClient returned carries
all four standard headers — Accept */*, Authorization with the current
bearer token, API-Version, and the library User-Agent — set after the
options ran, so no option can make one of them absent. -/
theorem claim_standard_headers_always_set (cfg : Config) (env : Env) (c : Client)
    (s : IAMClient) (method path : String) (b : List Nat)
    (opts : List (Option OptionFunc)) (r : Request)
    (hc : newClient cfg env = .ok c)
    (h : NewCDRRequest c s method path b opts = .ok r) :
    headerGet r.header "Accept" = some "*/*" ∧
    headerGet r.header "Authorization" = some ("Bearer " ++ s.token) ∧
    headerGet r.header "API-Version" = some APIVersion ∧
    headerGet r.header "User-Agent" = some userAgent := by
  have hua : c.userAgent = userAgent := newClient_userAgent cfg env c hc
  obtain ⟨req', hq, hr⟩ := (newCDRRequest_ok_iff c s method path b opts r).mp h
  subst hr
  refine ⟨setStandardHeaders_accept c s _, setStandardHeaders_auth c s _,
    setStandardHeaders_apiVersion c s _, ?_⟩
  rw [← hua]
  exact setStandardHeaders_userAgent c s _ (by rw [hua]; decide)

/-- The GET request built with a header-adding option applied. -/
def reqGetC8 : Request :=
  finalizeRequest cExClient tokEx "GET" []
    { initialRequest cExClient "GET" "Patient/123" with
        header := headerSet (initialRequest cExClient "GET" "Patient/123").header "X-Test" "1" }

theorem claim_standard_headers_always_set_witness :
    headerGet reqGetC8.header "Accept" = some "*/*" ∧
    headerGet reqGetC8.header "Authorization" = some ("Bearer " ++ tokEx.token) ∧
    headerGet reqGetC8.header "API-Version" = some APIVersion ∧
    headerGet reqGetC8.header "User-Agent" = some userAgent :=
  claim_standard_headers_always_set cfgExample envOk cExClient tokEx "GET" "Patient/123"
    [] [some optSetHeader] reqGetC8 (by decide) rfl

/-- A configuration with empty CDRURL and no FHIRStore override. -/
def cfgEmptyBase : Config :=
  { region := "", environment := "", rootOrgID := "org1", cdrURL := "",
    fhirStore := "", timeZone := "", debugLog := "" }

/-- C9 counterexample: with an empty CDRURL and no FHIRStore override the
computed store URL defaults to "/store/fhir/", which parses successfully,
so newClient succeeds and returns a client — it does not fail with a
configuration error as the claim states. -/
theorem claim_newClient_empty_url_counterexample :
    newClient cfgEmptyBase envOk =
      .ok { config := cfgEmptyBase,
            fhirStoreURL := { scheme := "", host := "", path := "/store/fhir/",
                              opaq := "", rawQuery := "", fragment := "" },
            userAgent := userAgent, debugFile := false } := by decide

/-- C9 amended: newClient fails exactly when the computed store URL string
fails URL parsing, propagating the parse error, and then returns no
client; the empty-URL configuration error exists but is reachable only by
calling SetFHIRStoreURL directly with an empty string, which newClient
never does, because the computed store string is never empty. -/
theorem claim_newClient_config_error (cfg : Config) (env : Env) (c0 : Client) (msg : String)
    (hp : urlParse (ensureSlash (fhirStoreDefault cfg)) = .error msg) :
    newClient cfg env = .error (CDRError.urlParseError msg) ∧
    SetFHIRStoreURL c0 "" = .error CDRError.errCDRURLCannotBeEmpty := by
  constructor
  · have hne : fhirStoreDefault cfg ≠ "" := by
      unfold fhirStoreDefault
      split
      · intro hemp
        have hdata : cfg.cdrURL.data ++ ("/store/fhir/").data = ([] : List Char) :=
          congrArg String.data hemp
        have hnil := List.append_eq_nil.mp hdata
        exact absurd hnil.2 (by decide)
      · next hfs => exact hfs
    have hset : SetFHIRStoreURL
        { config := cfg, fhirStoreURL := emptyURL, userAgent := userAgent, debugFile := false }
        (fhirStoreDefault cfg) = .error (CDRError.urlParseError msg) := by
      unfold SetFHIRStoreURL
      rw [if_neg hne, hp]
    unfold newClient
    simp only [hset]
  · rfl

/-- A configuration whose FHIRStore override cannot be parsed as a URL. -/
def cfgBadURL : Config :=
  { region := "", environment := "", rootOrgID := "", cdrURL := "",
    fhirStore := ":bad", timeZone := "", debugLog := "" }

theorem claim_newClient_config_error_witness :
    newClient cfgBadURL envOk = .error (CDRError.urlParseError "missing protocol scheme") ∧
    SetFHIRStoreURL cExClient "" = .error CDRError.errCDRURLCannotBeEmpty :=
  claim_newClient_config_error cfgBadURL envOk cExClient "missing protocol scheme" (by decide)

/-- C10: a nil option entry is skipped wherever it occurs — dropping it
leaves the build result unchanged — it is never invoked and produces no
error, and a list of only nil options behaves like the empty list. -/
theorem claim_nil_options_skipped (c : Client) (s : IAMClient) (method path : String)
    (b : List Nat) (pre post : List (Option OptionFunc)) (n : Nat) :
    NewCDRRequest c s method path b (pre ++ none :: post)
      = NewCDRRequest c s method path b (pre ++ post) ∧
    NewCDRRequest c s method path b (List.replicate n none)
      = NewCDRRequest c s method path b [] := by
  constructor
  · unfold NewCDRRequest
    rw [applyOptions_append, applyOptions_append]
    cases hpre : applyOptions (initialRequest c method path) pre with
    | error e => rfl
    | ok q => rfl
  · unfold NewCDRRequest
    have hrep : applyOptions (initialRequest c method path) (List.replicate n none)
        = applyOptions (initialRequest c method path) [] := by
      induction n with
      | zero => rfl
      | succ m ih =>
        rw [List.replicate_succ]
        exact ih
    rw [hrep]

end Cdr
